import Mathlib

/-!
Shallow embedding of `scripts/natural_language_inference/decomposable_attention.py`
(gluon-nlp), the Decomposable Attention model for Natural Language Inference
with intra-sentence attention.

Tensors of shape `[B, L, d]` are embedded as functions `Fin B → Fin L → Fin d → ℝ`
and tensors of shape `[B, d]` as `Fin B → Fin d → ℝ` (exact real arithmetic in
place of floating point).  Each MXNet primitive used by the source
(`nn.Dense(flatten=False)`, `nn.Dropout`, `F.batch_dot`, `softmax` over the last
axis, `F.concat(dim=-1)`, `transpose([0,2,1])`, `mean(axis=1)`, `nn.Embedding`)
is translated to an explicit definition below, and the three blocks
(`NLIModel`, `IntraSentenceAttention`, `DecomposableAttention`) are composed
exactly as in the three `hybrid_forward` methods.

Dropout randomness is made explicit: every `nn.Dropout` invocation receives a
Boolean keep-mask argument.  Following the MXNet implementation, a dropout
layer with rate `p` is the identity when `p ≤ 0` ("if self._rate > 0" guard),
and otherwise keeps element `x` as `x / (1 - p)` where its mask bit is true and
zeroes it where the bit is false.

The embedding lookup of `nn.Embedding(vocab_size, word_embed_size)` is fallible:
a token index `≥ vocab_size` is an index-out-of-bounds error, embedded as
`Option` (`none` on failure).
-/

open Real

noncomputable section

/-- Rank-3 tensor of shape `[B, L, d]`. -/
abbrev T3 (B L d : ℕ) : Type := Fin B → Fin L → Fin d → ℝ

/-- Rank-2 tensor of shape `[B, d]`. -/
abbrev T2 (B d : ℕ) : Type := Fin B → Fin d → ℝ

/-- Keep-mask for one dropout invocation on a rank-3 tensor. -/
abbrev Mask3 : Type := ℕ → ℕ → ℕ → Bool

/-- Keep-mask for one dropout invocation on a rank-2 tensor. -/
abbrev Mask2 : Type := ℕ → ℕ → Bool

/-- ReLU activation (`activation='relu'` of `nn.Dense`). -/
def relu (x : ℝ) : ℝ := max x 0

/-- `nn.Dense(dout, in_units=din, flatten=False)` applied to a `[B, L, din]`
tensor: an affine map over the last axis followed by the activation, applied
pointwise at every `(batch, position)` pair. -/
def dense3 {B L din dout : ℕ} (act : ℝ → ℝ) (W : Fin dout → Fin din → ℝ)
    (bv : Fin dout → ℝ) (X : T3 B L din) : T3 B L dout :=
  fun b i j => act ((∑ k, W j k * X b i k) + bv j)

/-- `nn.Dense(dout, in_units=din)` applied to a `[B, din]` tensor (the
predictor path, where the default `flatten=True` acts on an input that is
already rank 2). -/
def dense2 {B din dout : ℕ} (act : ℝ → ℝ) (W : Fin dout → Fin din → ℝ)
    (bv : Fin dout → ℝ) (X : T2 B din) : T2 B dout :=
  fun b j => act ((∑ k, W j k * X b k) + bv j)

/-- `nn.Dropout(p)` on a rank-3 tensor, with the sampled keep-mask explicit.
MXNet's layer is the identity unless the rate is positive; at positive rate a
kept element is scaled by `1 / (1 - p)` and a dropped element becomes `0`. -/
def dropout3 {B L d : ℕ} (p : ℝ) (m : Mask3) (X : T3 B L d) : T3 B L d :=
  fun b i j =>
    if 0 < p then (if m b.val i.val j.val then X b i j / (1 - p) else 0)
    else X b i j

/-- `nn.Dropout(p)` on a rank-2 tensor, with the sampled keep-mask explicit. -/
def dropout2 {B d : ℕ} (p : ℝ) (m : Mask2) (X : T2 B d) : T2 B d :=
  fun b j =>
    if 0 < p then (if m b.val j.val then X b j / (1 - p) else 0)
    else X b j

/-- `.softmax()` of a rank-3 tensor: softmax over the last axis, i.e. row-wise
softmax of each batch element's matrix. -/
def softmax3 {B L1 L2 : ℕ} (X : T3 B L1 L2) : T3 B L1 L2 :=
  fun b i j => Real.exp (X b i j) / ∑ k, Real.exp (X b i k)

/-- `F.batch_dot(A, Bt, transpose_b=True)`: per batch element, `A ⬝ Bᵀ`. -/
def batchDotT {B L1 L2 d : ℕ} (A : T3 B L1 d) (Bt : T3 B L2 d) : T3 B L1 L2 :=
  fun b i j => ∑ k, A b i k * Bt b j k

/-- `F.batch_dot(W, X)`: per batch element, ordinary matrix product. -/
def batchDot {B L1 L2 d : ℕ} (W : T3 B L1 L2) (X : T3 B L2 d) : T3 B L1 d :=
  fun b i j => ∑ k, W b i k * X b k j

/-- `.transpose([0, 2, 1])`: swap the last two axes of a rank-3 tensor. -/
def transpose021 {B L1 L2 : ℕ} (X : T3 B L1 L2) : T3 B L2 L1 :=
  fun b i j => X b j i

/-- `F.concat(X, Y, dim=-1)` on rank-3 tensors: concatenation along the
feature axis. -/
def concat3 {B L d1 d2 : ℕ} (X : T3 B L d1) (Y : T3 B L d2) : T3 B L (d1 + d2) :=
  fun b i => Fin.append (X b i) (Y b i)

/-- `F.concat(X, Y, dim=1)` on rank-2 tensors. -/
def concat2 {B d1 d2 : ℕ} (X : T2 B d1) (Y : T2 B d2) : T2 B (d1 + d2) :=
  fun b => Fin.append (X b) (Y b)

/-- `.mean(axis=1)`: average over the length axis of a `[B, L, d]` tensor. -/
def mean1 {B L d : ℕ} (X : T3 B L d) : T2 B d :=
  fun b j => (∑ i, X b i j) / (L : ℝ)

/-- Parameters of one three-layer feed-forward stack
`Dense(dh, in_units=din, relu) → Dense(dh, in_units=dh, relu) → Dense(dout, in_units=dh)`
(the shape shared by `intra_attn_emb`, `f`, `g` and `h` in the source). -/
structure FF3Params (din dh dout : ℕ) where
  W1 : Fin dh → Fin din → ℝ
  b1 : Fin dh → ℝ
  W2 : Fin dh → Fin dh → ℝ
  b2 : Fin dh → ℝ
  W3 : Fin dout → Fin dh → ℝ
  b3 : Fin dout → ℝ

/-- The `HybridSequential` stack
`dropout → Dense(relu) → dropout → Dense(relu) → Dense` on a rank-3 tensor,
as built for `intra_attn_emb`, `f` and `g` in the source. -/
def ffStack3 {B L din dh dout : ℕ} (p : ℝ) (P : FF3Params din dh dout)
    (m1 m2 : Mask3) (X : T3 B L din) : T3 B L dout :=
  dense3 id P.W3 P.b3
    (dense3 relu P.W2 P.b2
      (dropout3 p m2
        (dense3 relu P.W1 P.b1
          (dropout3 p m1 X))))

/-- The `HybridSequential` stack
`dropout → Dense(relu) → dropout → Dense(relu) → Dense` on a rank-2 tensor,
as built for the predictor `h` in the source. -/
def ffStack2 {B din dh dout : ℕ} (p : ℝ) (P : FF3Params din dh dout)
    (m1 m2 : Mask2) (X : T2 B din) : T2 B dout :=
  dense2 id P.W3 P.b3
    (dense2 relu P.W2 P.b2
      (dropout2 p m2
        (dense2 relu P.W1 P.b1
          (dropout2 p m1 X))))

/-- `IntraSentenceAttention.hybrid_forward`:
`tilde_a = intra_attn_emb(feature_a)`;
`e_matrix = batch_dot(tilde_a, tilde_a, transpose_b=True)`;
`alpha = batch_dot(e_matrix.softmax(), tilde_a)`; returns `alpha`. -/
def intraSentenceAttention {B L inp dh : ℕ} (p : ℝ)
    (P : FF3Params inp dh dh) (m1 m2 : Mask3) (featA : T3 B L inp) :
    T3 B L dh :=
  let tildeA := ffStack3 p P m1 m2 featA
  let eMatrix := batchDotT tildeA tildeA
  batchDot (softmax3 eMatrix) tildeA

/-- Parameters of `DecomposableAttention(inp, dh, c)`: the attend stack `f`
(input width `inp`), the compare stack `g` (input width `dh + dh`) and the
predictor stack `h` (input width `dh + dh`, output width `c = num_class`). -/
structure DAParams (inp dh c : ℕ) where
  f : FF3Params inp dh dh
  g : FF3Params (dh + dh) dh dh
  h : FF3Params (dh + dh) dh c

/-- Keep-masks for the ten dropout invocations inside one
`DecomposableAttention.hybrid_forward` call: two inside each of `f(a)`,
`f(b)`, `g(…tilde_a…)`, `g(…tilde_b…)` and the predictor `h`. -/
structure DAMasks where
  fa1 : Mask3
  fa2 : Mask3
  fb1 : Mask3
  fb2 : Mask3
  g11 : Mask3
  g12 : Mask3
  g21 : Mask3
  g22 : Mask3
  h1 : Mask2
  h2 : Mask2

/-- `DecomposableAttention.hybrid_forward`:
`tilde_a = f(a)`, `tilde_b = f(b)`,
`e = batch_dot(tilde_a, tilde_b, transpose_b=True)`,
`beta = batch_dot(e.softmax(), tilde_b)`,
`alpha = batch_dot(e.transpose([0,2,1]).softmax(), tilde_a)`,
`feature1 = g(concat(tilde_a, beta, dim=2)).mean(axis=1)`,
`feature2 = g(concat(tilde_b, alpha, dim=2)).mean(axis=1)`,
`yhat = h(concat(feature1, feature2, dim=1))`. -/
def decomposableAttention {B L1 L2 inp dh c : ℕ} (p : ℝ)
    (P : DAParams inp dh c) (mk : DAMasks)
    (a : T3 B L1 inp) (b : T3 B L2 inp) : T2 B c :=
  let tildeA := ffStack3 p P.f mk.fa1 mk.fa2 a
  let tildeB := ffStack3 p P.f mk.fb1 mk.fb2 b
  let e := batchDotT tildeA tildeB
  let beta := batchDot (softmax3 e) tildeB
  let alpha := batchDot (softmax3 (transpose021 e)) tildeA
  let feature1 := ffStack3 p P.g mk.g11 mk.g12 (concat3 tildeA beta)
  let feature2 := ffStack3 p P.g mk.g21 mk.g22 (concat3 tildeB alpha)
  ffStack2 p P.h mk.h1 mk.h2 (concat2 (mean1 feature1) (mean1 feature2))

/-- Parameters of `NLIModel(vocab_size=V, word_embed_size=E, hidden_size=H)`:
the embedding table, the shared projection `lin_proj`
(`Dense(H, in_units=E, relu, flatten=False)`), the
`IntraSentenceAttention(H, H)` stack, and the
`DecomposableAttention(H*2, H, 3)` block. -/
structure NLIParams (V E H : ℕ) where
  emb : Fin V → Fin E → ℝ
  projW : Fin H → Fin E → ℝ
  projB : Fin H → ℝ
  intra : FF3Params H H H
  da : DAParams (H + H) H 3

/-- Keep-masks for the sixteen dropout invocations of one `NLIModel` forward
pass: `dropout_layer` on each embedded sentence, two inside each of the two
`intra_attention` calls, and the ten of `DecomposableAttention`. -/
structure NLIMasks where
  e1 : Mask3
  e2 : Mask3
  i11 : Mask3
  i12 : Mask3
  i21 : Mask3
  i22 : Mask3
  da : DAMasks

/-- `nn.Embedding(vocab_size, word_embed_size)` lookup on a `[B, L]` batch of
token indices: succeeds with the table rows when every index is in range,
fails (index out of bounds) otherwise.  The model performs no bounds check of
its own. -/
def embedLookup {V E B L : ℕ} (emb : Fin V → Fin E → ℝ)
    (s : Fin B → Fin L → ℕ) : Option (T3 B L E) :=
  if h : ∀ b i, s b i < V then some (fun b i e => emb ⟨s b i, h b i⟩ e)
  else none

/-- The per-sentence stage of `NLIModel.hybrid_forward` applied to an embedded
sentence `x`: `feature = lin_proj(dropout_layer(x))` followed by
`F.concat(feature, intra_attention(feature), dim=-1)`. -/
def nliFeature {V E H B L : ℕ} (p : ℝ) (P : NLIParams V E H)
    (me mi1 mi2 : Mask3) (x : T3 B L E) : T3 B L (H + H) :=
  let feature := dense3 relu P.projW P.projB (dropout3 p me x)
  concat3 feature (intraSentenceAttention p P.intra mi1 mi2 feature)

/-- `NLIModel.hybrid_forward` on two token batches `sentence1 : [B, L1]` and
`sentence2 : [B, L2]`: embed each sentence (failing on any out-of-range token),
build the concatenated features through the shared `lin_proj` and
`intra_attention`, and run `DecomposableAttention` to get `[B, 3]` scores. -/
def nliForward {V E H B L1 L2 : ℕ} (p : ℝ) (P : NLIParams V E H)
    (mk : NLIMasks) (s1 : Fin B → Fin L1 → ℕ) (s2 : Fin B → Fin L2 → ℕ) :
    Option (T2 B 3) :=
  match embedLookup P.emb s1, embedLookup P.emb s2 with
  | some x1, some x2 =>
    some (decomposableAttention p P.da mk.da
      (nliFeature p P mk.e1 mk.i11 mk.i12 x1)
      (nliFeature p P mk.e2 mk.i21 mk.i22 x2))
  | _, _ => none

/-! ### Basic lemmas about the primitives -/

/-- With rate `0` the rank-3 dropout layer is the identity, whatever the mask. -/
theorem dropout3_zero {B L d : ℕ} (m : Mask3) (X : T3 B L d) :
    dropout3 0 m X = X := by
  funext b i j
  simp [dropout3]

/-- With rate `0` the rank-2 dropout layer is the identity, whatever the mask. -/
theorem dropout2_zero {B d : ℕ} (m : Mask2) (X : T2 B d) :
    dropout2 0 m X = X := by
  funext b j
  simp [dropout2]

/-- Every row of a softmax-normalized matrix sums to `1` (the row must be
nonempty, i.e. the normalized axis must have positive length). -/
theorem softmax3_row_sum {B L1 L2 : ℕ} (hL : 0 < L2) (M : T3 B L1 L2) :
    ∀ b i, ∑ j, softmax3 M b i j = 1 := by
  intro b i
  simp only [softmax3]
  rw [← Finset.sum_div]
  refine div_self (ne_of_gt (Finset.sum_pos (fun k _ => Real.exp_pos _) ?_))
  exact ⟨⟨0, hL⟩, Finset.mem_univ _⟩

/-! ### Slice congruence: every operation reads one batch index at a time -/

theorem dense3_congr {B B' L din dout : ℕ} (act : ℝ → ℝ)
    (W : Fin dout → Fin din → ℝ) (bv : Fin dout → ℝ)
    {X : T3 B L din} {X' : T3 B' L din} {b : Fin B} {b' : Fin B'}
    (h : X b = X' b') : dense3 act W bv X b = dense3 act W bv X' b' := by
  funext i j
  simp only [dense3]
  rw [h]

theorem dense2_congr {B B' din dout : ℕ} (act : ℝ → ℝ)
    (W : Fin dout → Fin din → ℝ) (bv : Fin dout → ℝ)
    {X : T2 B din} {X' : T2 B' din} {b : Fin B} {b' : Fin B'}
    (h : X b = X' b') : dense2 act W bv X b = dense2 act W bv X' b' := by
  funext j
  simp only [dense2]
  rw [h]

theorem ffStack3_zero_congr {B B' L din dh dout : ℕ} (P : FF3Params din dh dout)
    (m1 m2 m1' m2' : Mask3) {X : T3 B L din} {X' : T3 B' L din}
    {b : Fin B} {b' : Fin B'} (h : X b = X' b') :
    ffStack3 0 P m1 m2 X b = ffStack3 0 P m1' m2' X' b' := by
  simp only [ffStack3, dropout3_zero]
  exact dense3_congr _ _ _ (dense3_congr _ _ _ (dense3_congr _ _ _ h))

theorem ffStack2_zero_congr {B B' din dh dout : ℕ} (P : FF3Params din dh dout)
    (m1 m2 m1' m2' : Mask2) {X : T2 B din} {X' : T2 B' din}
    {b : Fin B} {b' : Fin B'} (h : X b = X' b') :
    ffStack2 0 P m1 m2 X b = ffStack2 0 P m1' m2' X' b' := by
  simp only [ffStack2, dropout2_zero]
  exact dense2_congr _ _ _ (dense2_congr _ _ _ (dense2_congr _ _ _ h))

theorem batchDotT_congr {B B' L1 L2 d : ℕ}
    {A : T3 B L1 d} {Bt : T3 B L2 d} {A' : T3 B' L1 d} {Bt' : T3 B' L2 d}
    {b : Fin B} {b' : Fin B'} (hA : A b = A' b') (hB : Bt b = Bt' b') :
    batchDotT A Bt b = batchDotT A' Bt' b' := by
  funext i j
  simp only [batchDotT]
  rw [hA, hB]

theorem batchDot_congr {B B' L1 L2 d : ℕ}
    {W : T3 B L1 L2} {X : T3 B L2 d} {W' : T3 B' L1 L2} {X' : T3 B' L2 d}
    {b : Fin B} {b' : Fin B'} (hW : W b = W' b') (hX : X b = X' b') :
    batchDot W X b = batchDot W' X' b' := by
  funext i j
  simp only [batchDot]
  rw [hW, hX]

theorem softmax3_congr {B B' L1 L2 : ℕ} {M : T3 B L1 L2} {M' : T3 B' L1 L2}
    {b : Fin B} {b' : Fin B'} (h : M b = M' b') :
    softmax3 M b = softmax3 M' b' := by
  funext i j
  simp only [softmax3]
  rw [h]

theorem transpose021_congr {B B' L1 L2 : ℕ} {M : T3 B L1 L2} {M' : T3 B' L1 L2}
    {b : Fin B} {b' : Fin B'} (h : M b = M' b') :
    transpose021 M b = transpose021 M' b' := by
  funext i j
  simp only [transpose021]
  rw [h]

theorem concat3_congr {B B' L d1 d2 : ℕ}
    {X : T3 B L d1} {Y : T3 B L d2} {X' : T3 B' L d1} {Y' : T3 B' L d2}
    {b : Fin B} {b' : Fin B'} (hX : X b = X' b') (hY : Y b = Y' b') :
    concat3 X Y b = concat3 X' Y' b' := by
  funext i
  simp only [concat3]
  rw [hX, hY]

theorem concat2_congr {B B' d1 d2 : ℕ}
    {X : T2 B d1} {Y : T2 B d2} {X' : T2 B' d1} {Y' : T2 B' d2}
    {b : Fin B} {b' : Fin B'} (hX : X b = X' b') (hY : Y b = Y' b') :
    concat2 X Y b = concat2 X' Y' b' := by
  simp only [concat2]
  rw [hX, hY]

theorem mean1_congr {B B' L d : ℕ} {X : T3 B L d} {X' : T3 B' L d}
    {b : Fin B} {b' : Fin B'} (h : X b = X' b') : mean1 X b = mean1 X' b' := by
  funext j
  simp only [mean1]
  rw [h]

theorem intra_zero_congr {B B' L inp dh : ℕ} (P : FF3Params inp dh dh)
    (m1 m2 m1' m2' : Mask3) {X : T3 B L inp} {X' : T3 B' L inp}
    {b : Fin B} {b' : Fin B'} (h : X b = X' b') :
    intraSentenceAttention 0 P m1 m2 X b
      = intraSentenceAttention 0 P m1' m2' X' b' := by
  simp only [intraSentenceAttention]
  have ht := ffStack3_zero_congr P m1 m2 m1' m2' h
  exact batchDot_congr (softmax3_congr (batchDotT_congr ht ht)) ht

theorem decompAtt_zero_congr {B B' L1 L2 inp dh c : ℕ} (P : DAParams inp dh c)
    (mk mk' : DAMasks) {a : T3 B L1 inp} {b : T3 B L2 inp}
    {a' : T3 B' L1 inp} {b' : T3 B' L2 inp} {bi : Fin B} {bi' : Fin B'}
    (ha : a bi = a' bi') (hb : b bi = b' bi') :
    decomposableAttention 0 P mk a b bi = decomposableAttention 0 P mk' a' b' bi' := by
  simp only [decomposableAttention]
  have hta := ffStack3_zero_congr P.f mk.fa1 mk.fa2 mk'.fa1 mk'.fa2 ha
  have htb := ffStack3_zero_congr P.f mk.fb1 mk.fb2 mk'.fb1 mk'.fb2 hb
  have he := batchDotT_congr hta htb
  have hbeta := batchDot_congr (softmax3_congr he) htb
  have halpha := batchDot_congr (softmax3_congr (transpose021_congr he)) hta
  have hf1 := ffStack3_zero_congr P.g mk.g11 mk.g12 mk'.g11 mk'.g12
    (concat3_congr hta hbeta)
  have hf2 := ffStack3_zero_congr P.g mk.g21 mk.g22 mk'.g21 mk'.g22
    (concat3_congr htb halpha)
  exact ffStack2_zero_congr P.h mk.h1 mk.h2 mk'.h1 mk'.h2
    (concat2_congr (mean1_congr hf1) (mean1_congr hf2))

theorem nliFeature_zero_congr {V E H B B' L : ℕ} (P : NLIParams V E H)
    (me mi1 mi2 me' mi1' mi2' : Mask3) {x : T3 B L E} {x' : T3 B' L E}
    {b : Fin B} {b' : Fin B'} (h : x b = x' b') :
    nliFeature 0 P me mi1 mi2 x b = nliFeature 0 P me' mi1' mi2' x' b' := by
  simp only [nliFeature, dropout3_zero]
  have hf := dense3_congr relu P.projW P.projB h
  exact concat3_congr hf (intra_zero_congr P.intra mi1 mi2 mi1' mi2' hf)

/-! ### Permutation equivariance: the model carries no positional information -/

theorem ffStack3_zero_permRows {B L din dh dout : ℕ} (P : FF3Params din dh dout)
    (m1 m2 m1' m2' : Mask3) (X : T3 B L din) (σ : Equiv.Perm (Fin L)) :
    ffStack3 0 P m1 m2 (fun b i => X b (σ i))
      = fun b i => ffStack3 0 P m1' m2' X b (σ i) := by
  simp only [ffStack3, dropout3_zero]
  rfl

theorem softmax3_perm2 {B L1 L2 : ℕ} (M : T3 B L1 L2)
    (σ1 : Equiv.Perm (Fin L1)) (σ2 : Equiv.Perm (Fin L2)) :
    softmax3 (fun b i j => M b (σ1 i) (σ2 j))
      = fun b i j => softmax3 M b (σ1 i) (σ2 j) := by
  funext b i j
  simp only [softmax3]
  rw [Equiv.sum_comp σ2 (fun k => Real.exp (M b (σ1 i) k))]

theorem batchDot_perm2 {B L1 L2 d : ℕ} (W : T3 B L1 L2) (X : T3 B L2 d)
    (σ1 : Equiv.Perm (Fin L1)) (σ2 : Equiv.Perm (Fin L2)) :
    batchDot (fun b i j => W b (σ1 i) (σ2 j)) (fun b k => X b (σ2 k))
      = fun b i => batchDot W X b (σ1 i) := by
  funext b i j
  simp only [batchDot]
  exact Equiv.sum_comp σ2 (fun k => W b (σ1 i) k * X b k j)

theorem mean1_permRows {B L d : ℕ} (X : T3 B L d) (σ : Equiv.Perm (Fin L)) :
    mean1 (fun b i => X b (σ i)) = mean1 X := by
  funext b j
  simp only [mean1]
  rw [Equiv.sum_comp σ (fun i => X b i j)]

theorem ffStack2_zero_mask_irrel {B din dh dout : ℕ} (P : FF3Params din dh dout)
    (m1 m2 m1' m2' : Mask2) (X : T2 B din) :
    ffStack2 0 P m1 m2 X = ffStack2 0 P m1' m2' X := by
  simp only [ffStack2, dropout2_zero]

theorem intra_zero_permRows {B L inp dh : ℕ} (P : FF3Params inp dh dh)
    (m1 m2 m1' m2' : Mask3) (X : T3 B L inp) (σ : Equiv.Perm (Fin L)) :
    intraSentenceAttention 0 P m1 m2 (fun b i => X b (σ i))
      = fun b i => intraSentenceAttention 0 P m1' m2' X b (σ i) := by
  simp only [intraSentenceAttention]
  rw [ffStack3_zero_permRows P m1 m2 m1' m2' X σ]
  rw [show batchDotT (fun b i => ffStack3 0 P m1' m2' X b (σ i))
        (fun b i => ffStack3 0 P m1' m2' X b (σ i))
      = (fun b i j => batchDotT (ffStack3 0 P m1' m2' X)
          (ffStack3 0 P m1' m2' X) b (σ i) (σ j)) from rfl]
  rw [softmax3_perm2 _ σ σ]
  exact batchDot_perm2 _ _ σ σ

theorem decompAtt_zero_perm {B L1 L2 inp dh c : ℕ} (P : DAParams inp dh c)
    (mk mk' : DAMasks) (a : T3 B L1 inp) (b : T3 B L2 inp)
    (σ1 : Equiv.Perm (Fin L1)) (σ2 : Equiv.Perm (Fin L2)) :
    decomposableAttention 0 P mk (fun bi i => a bi (σ1 i)) (fun bi i => b bi (σ2 i))
      = decomposableAttention 0 P mk' a b := by
  simp only [decomposableAttention]
  rw [ffStack3_zero_permRows P.f mk.fa1 mk.fa2 mk'.fa1 mk'.fa2 a σ1]
  rw [ffStack3_zero_permRows P.f mk.fb1 mk.fb2 mk'.fb1 mk'.fb2 b σ2]
  set ta := ffStack3 0 P.f mk'.fa1 mk'.fa2 a with hta
  set tb := ffStack3 0 P.f mk'.fb1 mk'.fb2 b with htb
  rw [show batchDotT (fun bi i => ta bi (σ1 i)) (fun bi i => tb bi (σ2 i))
      = (fun bi i j => batchDotT ta tb bi (σ1 i) (σ2 j)) from rfl]
  rw [softmax3_perm2 (batchDotT ta tb) σ1 σ2]
  rw [batchDot_perm2 (softmax3 (batchDotT ta tb)) tb σ1 σ2]
  rw [show transpose021 (fun bi i j => batchDotT ta tb bi (σ1 i) (σ2 j))
      = (fun bi i j => transpose021 (batchDotT ta tb) bi (σ2 i) (σ1 j)) from rfl]
  rw [softmax3_perm2 (transpose021 (batchDotT ta tb)) σ2 σ1]
  rw [batchDot_perm2 (softmax3 (transpose021 (batchDotT ta tb))) ta σ2 σ1]
  rw [show concat3 (fun bi i => ta bi (σ1 i))
        (fun bi i => batchDot (softmax3 (batchDotT ta tb)) tb bi (σ1 i))
      = (fun bi i => concat3 ta (batchDot (softmax3 (batchDotT ta tb)) tb) bi (σ1 i))
      from rfl]
  rw [show concat3 (fun bi i => tb bi (σ2 i))
        (fun bi i => batchDot (softmax3 (transpose021 (batchDotT ta tb))) ta bi (σ2 i))
      = (fun bi i => concat3 tb
          (batchDot (softmax3 (transpose021 (batchDotT ta tb))) ta) bi (σ2 i))
      from rfl]
  rw [ffStack3_zero_permRows P.g mk.g11 mk.g12 mk'.g11 mk'.g12 _ σ1]
  rw [ffStack3_zero_permRows P.g mk.g21 mk.g22 mk'.g21 mk'.g22 _ σ2]
  rw [mean1_permRows _ σ1, mean1_permRows _ σ2]
  exact ffStack2_zero_mask_irrel P.h mk.h1 mk.h2 mk'.h1 mk'.h2 _

theorem nliFeature_zero_permRows {V E H B L : ℕ} (P : NLIParams V E H)
    (me mi1 mi2 me' mi1' mi2' : Mask3) (x : T3 B L E) (σ : Equiv.Perm (Fin L)) :
    nliFeature 0 P me mi1 mi2 (fun b i => x b (σ i))
      = fun b i => nliFeature 0 P me' mi1' mi2' x b (σ i) := by
  simp only [nliFeature, dropout3_zero]
  rw [show dense3 relu P.projW P.projB (fun b i => x b (σ i))
      = (fun b i => dense3 relu P.projW P.projB x b (σ i)) from rfl]
  rw [intra_zero_permRows P.intra mi1 mi2 mi1' mi2' _ σ]
  rfl

theorem embedLookup_perm {V E B L : ℕ} (emb : Fin V → Fin E → ℝ)
    (s : Fin B → Fin L → ℕ) (σ : Equiv.Perm (Fin L)) :
    embedLookup emb (fun b i => s b (σ i))
      = Option.map (fun x : T3 B L E => fun b i => x b (σ i)) (embedLookup emb s) := by
  simp only [embedLookup]
  by_cases h : ∀ b i, s b i < V
  · rw [dif_pos h, dif_pos (fun b i => h b (σ i))]
    rfl
  · rw [dif_neg h, dif_neg]
    · rfl
    · intro hc
      refine h fun b i => ?_
      have := hc b (σ.symm i)
      simpa using this

theorem nliForward_zero_perm {V E H B L1 L2 : ℕ} (P : NLIParams V E H)
    (mk mk' : NLIMasks) (s1 : Fin B → Fin L1 → ℕ) (s2 : Fin B → Fin L2 → ℕ)
    (σ1 : Equiv.Perm (Fin L1)) (σ2 : Equiv.Perm (Fin L2)) :
    nliForward 0 P mk (fun b i => s1 b (σ1 i)) (fun b i => s2 b (σ2 i))
      = nliForward 0 P mk' s1 s2 := by
  simp only [nliForward, embedLookup_perm]
  cases h1 : embedLookup P.emb s1 with
  | none => rfl
  | some x1 =>
    cases h2 : embedLookup P.emb s2 with
    | none => rfl
    | some x2 =>
      simp only [Option.map_some]
      refine congrArg some ?_
      rw [nliFeature_zero_permRows P mk.e1 mk.i11 mk.i12 mk'.e1 mk'.i11 mk'.i12 x1 σ1]
      rw [nliFeature_zero_permRows P mk.e2 mk.i21 mk.i22 mk'.e2 mk'.i21 mk'.i22 x2 σ2]
      exact decompAtt_zero_perm P.da mk.da mk'.da _ _ σ1 σ2

/-! ### Spec-side formulas (written from the specification's equations, for
refinement-style comparison with the code's composition) -/

/-- Spec formula (section 4.3, steps 1 and 2): with
`e[i,k] = tilde_a[i] · tilde_b[k]`, for each position `i` of `a`,
`beta[i] = softmax_row(e)[i] · tilde_b`, a soft combination of `b`'s
transformed features; shape `[B, L1, H]`. -/
def betaSpecFormula {B L1 L2 dh : ℕ} (ta : T3 B L1 dh) (tb : T3 B L2 dh) :
    T3 B L1 dh :=
  fun b i j =>
    ∑ k, (Real.exp (∑ m, ta b i m * tb b k m)
      / ∑ k2, Real.exp (∑ m, ta b i m * tb b k2 m)) * tb b k j

/-- Spec formula (section 4.3, step 3): `alpha = softmax_row(e^T) @ tilde_a`,
for each position `i` of `b` a soft combination of `a`'s features, the softmax
weights normalized over the `L1` axis; shape `[B, L2, H]`. -/
def alphaSpecFormula {B L1 L2 dh : ℕ} (ta : T3 B L1 dh) (tb : T3 B L2 dh) :
    T3 B L2 dh :=
  fun b i j =>
    ∑ k, (Real.exp (∑ m, ta b k m * tb b i m)
      / ∑ k2, Real.exp (∑ m, ta b k2 m * tb b i m)) * ta b k j

/-- Spec formula (section 4.2, steps 2–4): pairwise similarity
`e[i,k] = tilde_a[i] · tilde_a[k]`, rows softmax-normalized over all positions
(including self), then `alpha = softmax(e) @ tilde_a`. -/
def intraAlphaSpecFormula {B L dh : ℕ} (ta : T3 B L dh) : T3 B L dh :=
  fun b i j =>
    ∑ k, (Real.exp (∑ m, ta b i m * ta b k m)
      / ∑ k2, Real.exp (∑ m, ta b i m * ta b k2 m)) * ta b k j

/-! ### Concrete instances (used to exercise theorems with hypotheses) -/

/-- All-zero parameters for one feed-forward stack. -/
def ffZero (din dh dout : ℕ) : FF3Params din dh dout :=
  ⟨fun _ _ => 0, fun _ => 0, fun _ _ => 0, fun _ => 0, fun _ _ => 0, fun _ => 0⟩

/-- All-zero parameters for a `DecomposableAttention` block. -/
def daZero (inp dh c : ℕ) : DAParams inp dh c :=
  ⟨ffZero inp dh dh, ffZero (dh + dh) dh dh, ffZero (dh + dh) dh c⟩

/-- All-zero parameters for an `NLIModel`. -/
def nliZero (V E H : ℕ) : NLIParams V E H :=
  ⟨fun _ _ => 0, fun _ _ => 0, fun _ => 0, ffZero H H H, daZero (H + H) H 3⟩

/-- The all-keep rank-3 mask. -/
def maskTrue3 : Mask3 := fun _ _ _ => true

/-- The all-keep rank-2 mask. -/
def maskTrue2 : Mask2 := fun _ _ => true

/-- All-keep masks for one `DecomposableAttention` call. -/
def daMasksTrue : DAMasks :=
  ⟨maskTrue3, maskTrue3, maskTrue3, maskTrue3, maskTrue3, maskTrue3,
    maskTrue3, maskTrue3, maskTrue2, maskTrue2⟩

/-- All-keep masks for one `NLIModel` forward pass. -/
def nliMasksTrue : NLIMasks :=
  ⟨maskTrue3, maskTrue3, maskTrue3, maskTrue3, maskTrue3, maskTrue3, daMasksTrue⟩

/-- The all-zero `[B, L]` token batch. -/
def tokZero (B L : ℕ) : Fin B → Fin L → ℕ := fun _ _ => 0

/-- The all-zero `[B, L, d]` tensor. -/
def t3Zero (B L d : ℕ) : T3 B L d := fun _ _ _ => 0

/-! ### Claim theorems -/

/-- C2: cross-attention soft alignment follows the stated equations.  With
`tilde_a = f(a)` and `tilde_b = f(b)`, the forward pass of
`DecomposableAttention` is exactly the composition that compares
`tilde_a` with `beta = softmax_row(e) @ tilde_b` (shape `[B, L1, H]`) and
`tilde_b` with `alpha = softmax_row(e^T) @ tilde_a` (shape `[B, L2, H]`,
weights normalized over the `L1` axis), where
`e = batched tilde_a · tilde_b^T` as spelled out in `betaSpecFormula` and
`alphaSpecFormula`. -/
theorem decompAtt_follows_spec_equations {B L1 L2 inp dh c : ℕ} (p : ℝ)
    (P : DAParams inp dh c) (mk : DAMasks)
    (a : T3 B L1 inp) (b : T3 B L2 inp) :
    decomposableAttention p P mk a b =
      (let ta := ffStack3 p P.f mk.fa1 mk.fa2 a
       let tb := ffStack3 p P.f mk.fb1 mk.fb2 b
       ffStack2 p P.h mk.h1 mk.h2 (concat2
         (mean1 (ffStack3 p P.g mk.g11 mk.g12 (concat3 ta (betaSpecFormula ta tb))))
         (mean1 (ffStack3 p P.g mk.g21 mk.g22 (concat3 tb (alphaSpecFormula ta tb)))))) :=
  rfl

/-- C6: the intra-sentence attention algorithm.  The module computes
`tilde_a = F_intra(feature)` (dropout → dense-ReLU → dropout → dense-ReLU →
dense, pointwise per position) and returns only
`alpha = row-softmax(tilde_a tilde_a^T) @ tilde_a` of shape
`[B, L, hidden_size]`; the concatenation with the pre-attention feature is
performed by `NLIModel`'s per-sentence stage, not by this module. -/
theorem intra_attention_algorithm {B L inp dh V E H B' L' : ℕ} (p : ℝ)
    (P : FF3Params inp dh dh) (m1 m2 : Mask3) (X : T3 B L inp)
    (Pn : NLIParams V E H) (me mi1 mi2 : Mask3) (x : T3 B' L' E) :
    intraSentenceAttention p P m1 m2 X
        = intraAlphaSpecFormula (ffStack3 p P m1 m2 X)
      ∧ nliFeature p Pn me mi1 mi2 x
        = concat3 (dense3 relu Pn.projW Pn.projB (dropout3 p me x))
            (intraSentenceAttention p Pn.intra mi1 mi2
              (dense3 relu Pn.projW Pn.projB (dropout3 p me x))) :=
  ⟨rfl, rfl⟩

/-- C3: row-stochasticity of the attention weights.  For every real input,
every row of the softmax-normalized intra-sentence matrix
`softmax(tilde_a tilde_a^T)` and of both directions of the cross-sentence
matrix — `softmax(e)` and `softmax(e^T)` — sums to `1` (the normalized axis
must be nonempty). -/
theorem attention_rows_sum_to_one {B L inp dh B2 L1 L2 inp2 dh2 c : ℕ}
    (p : ℝ) (Pi : FF3Params inp dh dh) (i1 i2 : Mask3) (X : T3 B L inp)
    (Pd : DAParams inp2 dh2 c) (mk : DAMasks)
    (a : T3 B2 L1 inp2) (b : T3 B2 L2 inp2)
    (hL : 0 < L) (hL1 : 0 < L1) (hL2 : 0 < L2) :
    (∀ bi i, ∑ j, softmax3
        (batchDotT (ffStack3 p Pi i1 i2 X) (ffStack3 p Pi i1 i2 X)) bi i j = 1)
    ∧ (∀ bi i, ∑ j, softmax3
        (batchDotT (ffStack3 p Pd.f mk.fa1 mk.fa2 a)
          (ffStack3 p Pd.f mk.fb1 mk.fb2 b)) bi i j = 1)
    ∧ (∀ bi i, ∑ j, softmax3
        (transpose021 (batchDotT (ffStack3 p Pd.f mk.fa1 mk.fa2 a)
          (ffStack3 p Pd.f mk.fb1 mk.fb2 b))) bi i j = 1) :=
  ⟨softmax3_row_sum hL _, softmax3_row_sum hL2 _, softmax3_row_sum hL1 _⟩

/-- Witness for `attention_rows_sum_to_one` at a concrete instance
(`B = L = L1 = L2 = inp = dh = 1`, zero parameters, all-keep masks). -/
theorem attention_rows_sum_to_one_witness :
    (0 < 1 ∧ 0 < 1 ∧ 0 < 1)
    ∧ ((∀ bi i, ∑ j, softmax3
          (batchDotT (ffStack3 0 (ffZero 1 1 1) maskTrue3 maskTrue3 (t3Zero 1 1 1))
            (ffStack3 0 (ffZero 1 1 1) maskTrue3 maskTrue3 (t3Zero 1 1 1))) bi i j = 1)
      ∧ (∀ bi i, ∑ j, softmax3
          (batchDotT (ffStack3 0 (daZero 1 1 1).f daMasksTrue.fa1 daMasksTrue.fa2 (t3Zero 1 1 1))
            (ffStack3 0 (daZero 1 1 1).f daMasksTrue.fb1 daMasksTrue.fb2 (t3Zero 1 1 1))) bi i j = 1)
      ∧ (∀ bi i, ∑ j, softmax3
          (transpose021 (batchDotT (ffStack3 0 (daZero 1 1 1).f daMasksTrue.fa1 daMasksTrue.fa2 (t3Zero 1 1 1))
            (ffStack3 0 (daZero 1 1 1).f daMasksTrue.fb1 daMasksTrue.fb2 (t3Zero 1 1 1)))) bi i j = 1)) :=
  ⟨⟨Nat.one_pos, Nat.one_pos, Nat.one_pos⟩,
    attention_rows_sum_to_one 0 (ffZero 1 1 1) maskTrue3 maskTrue3 (t3Zero 1 1 1)
      (daZero 1 1 1) daMasksTrue (t3Zero 1 1 1) (t3Zero 1 1 1)
      Nat.one_pos Nat.one_pos Nat.one_pos⟩

/-- C9 (implicit): length-one self-attention identity.  With dropout disabled,
on a feature tensor of sequence length `1` the `IntraSentenceAttention` module
returns exactly `F_intra(feature)`: the `1×1` softmax weight is `1`, so the
weighted sum `alpha` equals `tilde_a`. -/
theorem intra_length_one_identity {B inp dh : ℕ} (P : FF3Params inp dh dh)
    (m1 m2 : Mask3) (X : T3 B 1 inp) :
    intraSentenceAttention 0 P m1 m2 X = ffStack3 0 P m1 m2 X := by
  funext b i j
  have hi : i = 0 := Subsingleton.elim i 0
  subst hi
  simp [intraSentenceAttention, batchDot, softmax3, batchDotT,
    Fin.sum_univ_one, Real.exp_ne_zero, div_self]

/-- C4: output shape.  For every batch size `B` and sentence lengths `L1`,
`L2`, whenever every token is in vocabulary range the top-level forward
returns scores of shape exactly `[B, 3]` (`num_class = 3`), independent of
`L1` and `L2`: the mean-pooling collapses the length axis before the
predictor `h`. -/
theorem nli_output_shape {V E H B L1 L2 : ℕ} (p : ℝ) (P : NLIParams V E H)
    (mk : NLIMasks) (s1 : Fin B → Fin L1 → ℕ) (s2 : Fin B → Fin L2 → ℕ)
    (h1 : ∀ b i, s1 b i < V) (h2 : ∀ b i, s2 b i < V) :
    ∃ y : Fin B → Fin 3 → ℝ, nliForward p P mk s1 s2 = some y := by
  refine ⟨decomposableAttention p P.da mk.da
      (nliFeature p P mk.e1 mk.i11 mk.i12 (fun b i e => P.emb ⟨s1 b i, h1 b i⟩ e))
      (nliFeature p P mk.e2 mk.i21 mk.i22 (fun b i e => P.emb ⟨s2 b i, h2 b i⟩ e)),
    ?_⟩
  simp only [nliForward, embedLookup, dif_pos h1, dif_pos h2]

/-- Witness for `nli_output_shape` at a concrete instance
(`V = E = H = B = L1 = L2 = 1`, zero parameters, all-zero tokens). -/
theorem nli_output_shape_witness :
    (∀ b i, tokZero 1 1 b i < 1)
    ∧ ∃ y : Fin 1 → Fin 3 → ℝ,
        nliForward 0 (nliZero 1 1 1) nliMasksTrue (tokZero 1 1) (tokZero 1 1)
          = some y :=
  ⟨by decide,
    nli_output_shape 0 (nliZero 1 1 1) nliMasksTrue (tokZero 1 1) (tokZero 1 1)
      (by decide) (by decide)⟩

/-- C5: weight sharing between the sentence paths.  The sentence1 path and the
sentence2 path of the embedding + projection + intra-attention stage use the
same parameter tensors (`word_emb`, `lin_proj`, `intra_attention`), so with
dropout disabled, feeding the same token sequence through either path yields
identical outputs. -/
theorem shared_projection_paths_identical {V E H B L : ℕ} (P : NLIParams V E H)
    (mk : NLIMasks) (s : Fin B → Fin L → ℕ) :
    Option.map (nliFeature 0 P mk.e1 mk.i11 mk.i12) (embedLookup P.emb s)
      = Option.map (nliFeature 0 P mk.e2 mk.i21 mk.i22) (embedLookup P.emb s) :=
  Option.map_congr fun _ _ => funext fun _ =>
    nliFeature_zero_congr P mk.e1 mk.i11 mk.i12 mk.e2 mk.i21 mk.i22 rfl

/-- C7: dropout-disabled determinism.  With dropout probability `0` and fixed
parameters, the forward pass does not depend on the sampled dropout masks —
the only run-to-run variation — so any two invocations on identical inputs
produce identical outputs. -/
theorem nli_dropout_zero_deterministic {V E H B L1 L2 : ℕ} (P : NLIParams V E H)
    (mk mk' : NLIMasks) (s1 : Fin B → Fin L1 → ℕ) (s2 : Fin B → Fin L2 → ℕ) :
    nliForward 0 P mk s1 s2 = nliForward 0 P mk' s1 s2 := by
  simp only [nliForward]
  cases h1 : embedLookup P.emb s1 with
  | none => rfl
  | some x1 =>
    cases h2 : embedLookup P.emb s2 with
    | none => rfl
    | some x2 =>
      exact congrArg some (funext fun bi => decompAtt_zero_congr P.da mk.da mk'.da
        (nliFeature_zero_congr P mk.e1 mk.i11 mk.i12 mk'.e1 mk'.i11 mk'.i12 rfl)
        (nliFeature_zero_congr P mk.e2 mk.i21 mk.i22 mk'.e2 mk'.i21 mk'.i22 rfl))

/-- C8: out-of-range token handling.  The forward pass fails (returns `none`,
the index-out-of-bounds error of the embedding lookup) exactly when some token
index is `≥ vocab_size`; the model performs no bounds check of its own, and
the embedding lookup is the sole point of failure — with every token in range
the pass succeeds. -/
theorem oob_token_fails {V E H B L1 L2 : ℕ} (p : ℝ) (P : NLIParams V E H)
    (mk : NLIMasks) (s1 : Fin B → Fin L1 → ℕ) (s2 : Fin B → Fin L2 → ℕ) :
    nliForward p P mk s1 s2 = none
      ↔ (∃ b i, V ≤ s1 b i) ∨ (∃ b i, V ≤ s2 b i) := by
  simp only [nliForward, embedLookup]
  by_cases h1 : ∀ b i, s1 b i < V
  · by_cases h2 : ∀ b i, s2 b i < V
    · have hn1 : ¬ ∃ b i, V ≤ s1 b i := by push_neg; exact h1
      have hn2 : ¬ ∃ b i, V ≤ s2 b i := by push_neg; exact h2
      rw [dif_pos h1, dif_pos h2]
      simp [hn1, hn2]
    · have he2 : ∃ b i, V ≤ s2 b i := by push_neg at h2; exact h2
      rw [dif_pos h1, dif_neg h2]
      simp [he2]
  · have he1 : ∃ b i, V ≤ s1 b i := by push_neg at h1; exact h1
    rw [dif_neg h1]
    simp [he1]

/-- C10 (implicit): batch noninterference.  With dropout disabled, row `bi` of
the output depends only on row `bi` of `sentence1` and of `sentence2`: two
(possibly different-batch-size) in-range inputs that agree at one batch index
produce identical output rows there — all cross-position mixing via
`batch_dot` and `mean` is confined within a batch element. -/
theorem batch_noninterference {V E H B B' L1 L2 : ℕ} (P : NLIParams V E H)
    (mk mk' : NLIMasks) (s1 : Fin B → Fin L1 → ℕ) (s2 : Fin B → Fin L2 → ℕ)
    (s1' : Fin B' → Fin L1 → ℕ) (s2' : Fin B' → Fin L2 → ℕ)
    (bi : Fin B) (bi' : Fin B')
    (h1 : ∀ b i, s1 b i < V) (h2 : ∀ b i, s2 b i < V)
    (h1' : ∀ b i, s1' b i < V) (h2' : ∀ b i, s2' b i < V)
    (e1 : s1 bi = s1' bi') (e2 : s2 bi = s2' bi') :
    ∃ y y', nliForward 0 P mk s1 s2 = some y
      ∧ nliForward 0 P mk' s1' s2' = some y'
      ∧ y bi = y' bi' := by
  have hx1 : (fun i e => P.emb ⟨s1 bi i, h1 bi i⟩ e)
      = fun i e => P.emb ⟨s1' bi' i, h1' bi' i⟩ e := by
    funext i e
    exact congrFun (congrArg P.emb (Fin.mk_eq_mk.mpr (congrFun e1 i))) e
  have hx2 : (fun i e => P.emb ⟨s2 bi i, h2 bi i⟩ e)
      = fun i e => P.emb ⟨s2' bi' i, h2' bi' i⟩ e := by
    funext i e
    exact congrFun (congrArg P.emb (Fin.mk_eq_mk.mpr (congrFun e2 i))) e
  refine ⟨decomposableAttention 0 P.da mk.da
      (nliFeature 0 P mk.e1 mk.i11 mk.i12 (fun b i e => P.emb ⟨s1 b i, h1 b i⟩ e))
      (nliFeature 0 P mk.e2 mk.i21 mk.i22 (fun b i e => P.emb ⟨s2 b i, h2 b i⟩ e)),
    decomposableAttention 0 P.da mk'.da
      (nliFeature 0 P mk'.e1 mk'.i11 mk'.i12 (fun b i e => P.emb ⟨s1' b i, h1' b i⟩ e))
      (nliFeature 0 P mk'.e2 mk'.i21 mk'.i22 (fun b i e => P.emb ⟨s2' b i, h2' b i⟩ e)),
    ?_, ?_, ?_⟩
  · simp only [nliForward, embedLookup, dif_pos h1, dif_pos h2]
  · simp only [nliForward, embedLookup, dif_pos h1', dif_pos h2']
  · exact decompAtt_zero_congr P.da mk.da mk'.da
      (nliFeature_zero_congr P mk.e1 mk.i11 mk.i12 mk'.e1 mk'.i11 mk'.i12 hx1)
      (nliFeature_zero_congr P mk.e2 mk.i21 mk.i22 mk'.e2 mk'.i21 mk'.i22 hx2)

/-- Witness for `batch_noninterference` at a concrete instance
(`V = E = H = B = B' = L1 = L2 = 1`, zero parameters, all-zero tokens). -/
theorem batch_noninterference_witness :
    ((∀ b i, tokZero 1 1 b i < 1) ∧ tokZero 1 1 0 = tokZero 1 1 0)
    ∧ ∃ y y',
        nliForward 0 (nliZero 1 1 1) nliMasksTrue (tokZero 1 1) (tokZero 1 1)
          = some y
      ∧ nliForward 0 (nliZero 1 1 1) nliMasksTrue (tokZero 1 1) (tokZero 1 1)
          = some y'
      ∧ y 0 = y' 0 :=
  ⟨⟨by decide, rfl⟩,
    batch_noninterference (nliZero 1 1 1) nliMasksTrue nliMasksTrue
      (tokZero 1 1) (tokZero 1 1) (tokZero 1 1) (tokZero 1 1) 0 0
      (by decide) (by decide) (by decide) (by decide) rfl rfl⟩

/-- C1 (amended): permutation invariance of the aggregate output.  With
dropout disabled and fixed parameters, permuting token order within either
sentence (or both) never changes the mean-pooled aggregate class scores: the
model carries no positional information, every stage is permutation-
equivariant per batch element, and the mean-pooling erases the order. -/
theorem nli_perm_invariant {V E H B L1 L2 : ℕ} (P : NLIParams V E H)
    (mk : NLIMasks) (s1 : Fin B → Fin L1 → ℕ) (s2 : Fin B → Fin L2 → ℕ)
    (σ1 : Equiv.Perm (Fin L1)) (σ2 : Equiv.Perm (Fin L2)) :
    nliForward 0 P mk (fun b i => s1 b (σ1 i)) (fun b i => s2 b (σ2 i))
      = nliForward 0 P mk s1 s2 :=
  nliForward_zero_perm P mk mk s1 s2 σ1 σ2

/-- C1 counterexample: the claimed permutation sensitivity is false.  There is
no input and no (in particular no non-identity) permutation of token order
within a sentence that changes the dropout-disabled forward output: the final
class scores are invariant under every within-sentence permutation. -/
theorem nli_no_perm_sensitivity :
    ¬ ∃ (V E H B L1 L2 : ℕ) (P : NLIParams V E H) (mk : NLIMasks)
      (s1 : Fin B → Fin L1 → ℕ) (s2 : Fin B → Fin L2 → ℕ)
      (σ1 : Equiv.Perm (Fin L1)) (σ2 : Equiv.Perm (Fin L2)),
      (σ1 ≠ Equiv.refl (Fin L1) ∨ σ2 ≠ Equiv.refl (Fin L2))
      ∧ nliForward 0 P mk (fun b i => s1 b (σ1 i)) (fun b i => s2 b (σ2 i))
          ≠ nliForward 0 P mk s1 s2 := by
  rintro ⟨V, E, H, B, L1, L2, P, mk, s1, s2, σ1, σ2, -, hne⟩
  exact hne (nliForward_zero_perm P mk mk s1 s2 σ1 σ2)
